import Mathlib

/-!
Verification of the per-call turn-taking session coordinator of the
Chatbot repository (backend/app/services): the μ-law codec, the playback
pacer's chunking, the conversation-history bound, and the per-session
transcript buffer / debounce timer / response-trigger-guard state machine
of `VoiceService`, together with session cleanup.

Shallow embedding conventions:
- Python `bytes` are `List Nat` (each element a byte value 0..255).
- Python machine integers are `Nat`/`Int` with explicit `% 2^w` where the
  source relies on wrapping.
- The asynchronous code of `VoiceService` is embedded as a deterministic
  step machine whose atomic steps are the code segments between `await`
  suspension points; the external GPT engine's completion (success or
  raised exception) is delivered as an explicit event.
-/

namespace Chatbot

/-! ## Codec (voice_service.py, `ulaw_to_linear` / `ulaw_decode`)

The Python source takes each byte `b` of the companded payload, forms the
complement `~b` and extracts sign bit, 3-bit exponent and 4-bit mantissa
from its low 8 bits.  For `b ≥ 0`, Python's `(~b) & m` for an 8-bit mask
`m` equals `(255 - b % 256) & m`, so the embedding works with the
complement byte `255 - b % 256` directly. -/

/-- One μ-law byte to a linear PCM sample (`ulaw_to_linear` in
voice_service.py): complement the byte, split sign / exponent / mantissa,
shift the mantissa by `exponent + 3`, add the bias `0x84` shifted by the
exponent, and negate when the sign bit is set. -/
def ulaw_to_linear (b : Nat) : Int :=
  let u := 255 - b % 256
  let exponent := u / 16 % 8
  let mantissa := u % 16
  let sample : Nat := (mantissa <<< (exponent + 3)) + (0x84 <<< exponent)
  if 128 ≤ u then -(sample : Int) else (sample : Int)

/-- Two's-complement little-endian 16-bit encoding of a sample, as done by
`struct.pack` with format `<h` in `ulaw_decode`. -/
def toLE16 (v : Int) : List Nat :=
  let u := (v % 65536).toNat
  [u % 256, u / 256]

/-- The μ-law payload decoder (`ulaw_decode` in voice_service.py): decode
each byte and pack the samples as signed 16-bit little-endian. -/
def ulaw_decode : List Nat → List Nat
  | [] => []
  | b :: bs => toLE16 (ulaw_to_linear b) ++ ulaw_decode bs

/-! ## Playback pacer (tts_service.py, `TTSService.stream_to_chunks`) -/

/-- Samples per chunk: `(sample_rate * chunk_size_ms) // 1000` in
`stream_to_chunks`. -/
def samplesPerChunk (sampleRate chunkMs : Nat) : Nat :=
  sampleRate * chunkMs / 1000

/-- Chunk size in bytes: `samples_per_chunk * bytes_per_sample` in
`stream_to_chunks`. -/
def chunkSizeBytes (sampleRate chunkMs bytesPerSample : Nat) : Nat :=
  samplesPerChunk sampleRate chunkMs * bytesPerSample

/-- The chunking loop of `stream_to_chunks`:
`for i in range(0, len(audio_data), chunk_size_bytes)` yielding
`audio_data[i:i + chunk_size_bytes]`.  (Python raises for a zero step, so
the `c = 0` branch is outside the source's domain; all theorems assume
`0 < c`.) -/
def splitChunks (c : Nat) (xs : List Nat) : List (List Nat) :=
  if h : c = 0 ∨ xs = [] then []
  else xs.take c :: splitChunks c (xs.drop c)
termination_by xs.length
decreasing_by
  push_neg at h
  have h1 : 0 < c := Nat.pos_of_ne_zero h.1
  have h2 : 0 < xs.length := List.length_pos.mpr h.2
  simp only [List.length_drop]
  omega

/-! ## Conversation history (voice_service.py, `_process_with_gpt`) -/

/-- One entry of a session's conversation history: a `{"role": ..,
"content": ..}` dict appended in `_process_with_gpt`. -/
structure Msg where
  role : String
  content : String
deriving DecidableEq, Repr

/-- The trim in `_process_with_gpt`: keep `history[-10:]` when the list
has grown beyond 10 entries. -/
def trimHistory (h : List Msg) : List Msg :=
  if h.length > 10 then h.drop (h.length - 10) else h

/-- The history update done after a successful GPT call in
`_process_with_gpt`: append the `{user, input}` and `{assistant, response}`
pair, then trim to the last 10 entries. -/
def updateHistory (h : List Msg) (input response : String) : List Msg :=
  trimHistory (h ++ [⟨"user", input⟩, ⟨"assistant", response⟩])

/-! ## Per-session turn-taking machine (voice_service.py)

The mutable per-call dict created in `handle_stream_start`, restricted to
the fields the transcript / debounce / guard logic touches, is `CallInfo`.
The surrounding coordinator state is `VMState`:

- `session` is `self.active_calls[call_sid]` (`none` once the call has
  been cleaned up);
- `pendingTimer` is the currently armed, not-yet-cancelled,
  not-yet-fired debounce task together with the time it was armed
  (`call_info["gpt_timer"]`; arming a new timer cancels the previous
  one, so at most one is live);
- `inFlight` is `some text` while `_process_with_gpt` is suspended at
  the `await` on the GPT engine for `text`;
- `gptCalls` logs every invocation of the generation engine with the
  `(user_input, conversation_history)` arguments passed to it.

The GPT and STT services are taken as enabled (the claims are about the
enabled path; a disabled engine degrades the stage to a no-op). -/

/-- The per-call session dict fields used by `_handle_transcript`,
`delayed_process` and `_process_with_gpt`. -/
structure CallInfo where
  conversation_buffer : List String
  transcription_count : Nat
  gpt_response_count : Nat
  conversation_history : List Msg
  processing_lock : Bool
  last_processed_text : Option String
  duplicate_prevention_count : Nat
deriving DecidableEq, Repr

/-- Coordinator state for one call, at `await`-point granularity. -/
structure VMState where
  session : Option CallInfo
  pendingTimer : Option (Nat × Nat)
  nextTimerId : Nat
  inFlight : Option String
  gptCalls : List (String × List Msg)
deriving DecidableEq, Repr

/-- Events driving the machine: a transcript callback (with arrival time,
text, `is_final`, `speech_final`), a debounce task waking up from its
1.5 s sleep (with the task id and current time), the in-flight GPT call
returning (successfully or raising), and `cleanup_call`. -/
inductive Event where
  | transcript (now : Nat) (text : String) (isFinal speechFinal : Bool)
  | timerFire (id : Nat) (now : Nat)
  | gptOk (response : String)
  | gptErr
  | cleanup
deriving DecidableEq, Repr

/-- Python's default `str.strip` whitespace set — the characters for
which `str.isspace()` holds: the ASCII whitespace U+0009–U+000D and
space, the separators U+001C–U+001F, plus the Unicode whitespace
U+0085, U+00A0, U+1680, U+2000–U+200A, U+2028, U+2029, U+202F, U+205F
and U+3000. -/
def pyWS (c : Char) : Bool :=
  decide ((9 ≤ c.toNat ∧ c.toNat ≤ 13) ∨ (28 ≤ c.toNat ∧ c.toNat ≤ 32) ∨
    c.toNat = 0x85 ∨ c.toNat = 0xA0 ∨ c.toNat = 0x1680 ∨
    (0x2000 ≤ c.toNat ∧ c.toNat ≤ 0x200A) ∨ c.toNat = 0x2028 ∨ c.toNat = 0x2029 ∨
    c.toNat = 0x202F ∨ c.toNat = 0x205F ∨ c.toNat = 0x3000)

/-- Python's `transcript.strip()`: drop leading and trailing whitespace. -/
def pyStrip (s : String) : String :=
  String.mk (((s.data.dropWhile pyWS).reverse.dropWhile pyWS).reverse)

/-- Python's space-separated join of the utterance buffer. -/
def joinSpace (xs : List String) : String :=
  String.intercalate " " xs

/-- The fixed debounce delay, `asyncio.sleep(1.5)`, in milliseconds. -/
def debounceMs : Nat := 1500

/-- The synchronous part of `_handle_transcript` up to (and including)
the guard checks and, on acceptance, the prefix of `_process_with_gpt`
that runs before its `await` on the GPT engine:

- return early when the call is unknown;
- `transcription_count += 1`;
- when `is_final and transcript.strip()`: append `transcript.strip()` to
  the buffer; then
  - if `speech_final`: cancel any pending timer, join the buffer into
    `user_input`, and run the guard — a set `processing_lock` or a match
    with `last_processed_text` bumps `duplicate_prevention_count` and
    returns (the buffer is left as is); otherwise `_process_with_gpt`
    sets the lock, records `last_processed_text`, and issues the GPT
    call (the buffer is cleared only after that call returns);
  - otherwise cancel any pending timer and arm a fresh 1.5 s one. -/
def stepTranscript (st : VMState) (now : Nat) (text : String)
    (isFinal speechFinal : Bool) : VMState :=
  match st.session with
  | none => st
  | some ci0 =>
    let ci := { ci0 with transcription_count := ci0.transcription_count + 1 }
    if isFinal && (pyStrip text != "") then
      let ci := { ci with conversation_buffer := ci.conversation_buffer ++ [pyStrip text] }
      if speechFinal then
        let user_input := joinSpace ci.conversation_buffer
        if ci.processing_lock then
          { st with
            session := some { ci with
              duplicate_prevention_count := ci.duplicate_prevention_count + 1 }
            pendingTimer := none }
        else if ci.last_processed_text = some user_input then
          { st with
            session := some { ci with
              duplicate_prevention_count := ci.duplicate_prevention_count + 1 }
            pendingTimer := none }
        else
          { st with
            session := some { ci with
              processing_lock := true
              last_processed_text := some user_input }
            pendingTimer := none
            inFlight := some user_input
            gptCalls := st.gptCalls ++ [(user_input, ci.conversation_history)] }
      else
        { st with
          session := some ci
          pendingTimer := some (st.nextTimerId, now)
          nextTimerId := st.nextTimerId + 1 }
    else
      { st with session := some ci }

/-- A debounce task waking up (`delayed_process` after its sleep).  The
wake-up is real only for the currently armed timer at exactly its arm
time plus the debounce delay — a cancelled or superseded task never runs
its body.  The body re-checks that the call is still registered and the
buffer non-empty, then runs the same guard as the end-of-speech path. -/
def stepTimer (st : VMState) (id now : Nat) : VMState :=
  match st.pendingTimer with
  | none => st
  | some (tid, armedAt) =>
    if tid = id ∧ now = armedAt + debounceMs then
      let st1 := { st with pendingTimer := (none : Option (Nat × Nat)) }
      match st1.session with
      | none => st1
      | some ci =>
        if ci.conversation_buffer = [] then st1
        else
          let user_input := joinSpace ci.conversation_buffer
          if ci.processing_lock then
            { st1 with
              session := some { ci with
                duplicate_prevention_count := ci.duplicate_prevention_count + 1 } }
          else if ci.last_processed_text = some user_input then
            { st1 with
              session := some { ci with
                duplicate_prevention_count := ci.duplicate_prevention_count + 1 } }
          else
            { st1 with
              session := some { ci with
                processing_lock := true
                last_processed_text := some user_input }
              inFlight := some user_input
              gptCalls := st1.gptCalls ++ [(user_input, ci.conversation_history)] }
    else st

/-- The in-flight GPT call returning successfully: the remainder of
`_process_with_gpt` (`gpt_response_count += 1`, append the user and
assistant entries, trim the history to 10, release the lock in
`finally`) followed by the caller's `conversation_buffer.clear()`. -/
def stepGptOk (st : VMState) (response : String) : VMState :=
  match st.inFlight with
  | none => st
  | some input =>
    match st.session with
    | none => { st with inFlight := none }
    | some ci =>
      { st with
        inFlight := none
        session := some { ci with
          gpt_response_count := ci.gpt_response_count + 1
          conversation_history := updateHistory ci.conversation_history input response
          processing_lock := false
          conversation_buffer := [] } }

/-- The in-flight GPT call raising (or being cancelled): the `except`
block logs, `finally` releases the lock, and the caller still clears the
buffer.  `last_processed_text` is not rolled back. -/
def stepGptErr (st : VMState) : VMState :=
  match st.inFlight with
  | none => st
  | some _ =>
    match st.session with
    | none => { st with inFlight := none }
    | some ci =>
      { st with
        inFlight := none
        session := some { ci with
          processing_lock := false
          conversation_buffer := [] } }

/-- The session part of `cleanup_call`: delete the call from
`active_calls`.  The pending debounce task is not cancelled. -/
def stepCleanup (st : VMState) : VMState :=
  match st.session with
  | none => st
  | some _ => { st with session := none }

/-- One machine step. -/
def step (st : VMState) : Event → VMState
  | .transcript now text isFinal speechFinal => stepTranscript st now text isFinal speechFinal
  | .timerFire id now => stepTimer st id now
  | .gptOk response => stepGptOk st response
  | .gptErr => stepGptErr st
  | .cleanup => stepCleanup st

/-- Run a list of events. -/
def run (st : VMState) (evs : List Event) : VMState :=
  evs.foldl step st

/-- The session dict as initialized by `handle_stream_start`. -/
def initialCallInfo : CallInfo where
  conversation_buffer := []
  transcription_count := 0
  gpt_response_count := 0
  conversation_history := []
  processing_lock := false
  last_processed_text := none
  duplicate_prevention_count := 0

/-- Coordinator state right after `handle_stream_start`. -/
def initialState : VMState where
  session := some initialCallInfo
  pendingTimer := none
  nextTimerId := 0
  inFlight := none
  gptCalls := []

/-! ## Session registry and STT teardown (cleanup_call / stop_stream) -/

/-- The `STTService` state relevant to teardown: the keys of
`active_connections`, plus a log of the connection teardowns actually
performed (close-stream control message and context exit). -/
structure STTState where
  active_connections : List String
  closes_performed : List String
deriving DecidableEq, Repr

/-- `STTService.stop_stream`: a call id without an active connection
returns `False` immediately; otherwise the connection is torn down and
the entry deleted (dict keys are unique, so deletion removes every entry
for the id). -/
def stop_stream (st : STTState) (sid : String) : STTState × Bool :=
  if sid ∈ st.active_connections then
    ({ active_connections := st.active_connections.filter (fun x => x != sid)
       closes_performed := st.closes_performed ++ [sid] }, true)
  else (st, false)

/-- The `VoiceService` state relevant to `cleanup_call`: the keys of
`active_calls`, the STT service, and a log of the invocations of
`stop_stream` made by cleanup. -/
structure VoiceState where
  active_calls : List String
  stt : STTState
  stop_calls : List String
deriving DecidableEq, Repr

/-- `VoiceService.cleanup_call` (STT enabled): when the call is
registered, invoke `stop_stream` and delete the session entry; otherwise
do nothing. -/
def cleanup_call (vs : VoiceState) (sid : String) : VoiceState :=
  if sid ∈ vs.active_calls then
    { active_calls := vs.active_calls.filter (fun x => x != sid)
      stt := (stop_stream vs.stt sid).1
      stop_calls := vs.stop_calls ++ [sid] }
  else vs

/-! ## Codec lemmas -/

/-- Decoding a payload with one more byte appends one more LE16 sample. -/
theorem ulaw_decode_append (xs : List Nat) (b : Nat) :
    ulaw_decode (xs ++ [b]) = ulaw_decode xs ++ toLE16 (ulaw_to_linear b) := by
  induction xs with
  | nil => simp [ulaw_decode]
  | cons c cs ih => simp [ulaw_decode, ih]

/-- Decoding depends only on the byte value modulo 256 (a Python `bytes`
element is already in 0..255). -/
theorem ulaw_to_linear_mod (b : Nat) :
    ulaw_to_linear (b % 256) = ulaw_to_linear b := by
  unfold ulaw_to_linear
  rw [Nat.mod_mod_of_dvd b (dvd_refl 256)]

set_option maxRecDepth 4000 in
/-- Every decoded sample is within the signed 16-bit range (so the
`struct.pack` format `<h` in the source never overflows). -/
theorem ulaw_to_linear_bounds (b : Nat) :
    -32256 ≤ ulaw_to_linear b ∧ ulaw_to_linear b ≤ 32256 := by
  rw [← ulaw_to_linear_mod b]
  have h : b % 256 < 256 := Nat.mod_lt _ (by omega)
  exact (by decide :
    ∀ u < 256, -32256 ≤ ulaw_to_linear u ∧ ulaw_to_linear u ≤ 32256) (b % 256) h

/-- C7: decoding produces exactly twice as many bytes as the input; each
input byte contributes one signed 16-bit little-endian sample computed by
`ulaw_to_linear` — the byte's complement split into sign, 3-bit exponent
and 4-bit mantissa, with the bias `0x84` (shifted by the exponent) added
before the sign is applied; every sample fits in a signed 16-bit word;
and the single companded sample `0xFF` decodes to the near-zero value
`132 = 0x84`, i.e. to the PCM bytes `[132, 0]`.  `ulaw_decode` is a plain
function of its argument, hence pure and deterministic. -/
theorem ulaw_decode_correct :
    (∀ xs : List Nat, (ulaw_decode xs).length = 2 * xs.length) ∧
    (∀ (xs : List Nat) (b : Nat),
        ulaw_decode (xs ++ [b]) = ulaw_decode xs ++ toLE16 (ulaw_to_linear b)) ∧
    (∀ b : Nat, -32256 ≤ ulaw_to_linear b ∧ ulaw_to_linear b ≤ 32256) ∧
    ulaw_to_linear 0xFF = 132 ∧ ulaw_decode [0xFF] = [132, 0] := by
  refine ⟨?_, ulaw_decode_append, ulaw_to_linear_bounds, by decide, by decide⟩
  intro xs
  induction xs with
  | nil => rfl
  | cons b bs ih => simp [ulaw_decode, toLE16, ih]; omega

/-! ## Playback pacer lemmas -/

/-- Unfolding: an empty payload yields no chunks. -/
theorem splitChunks_nil (c : Nat) : splitChunks c [] = [] := by
  rw [splitChunks]
  simp

/-- Unfolding: a non-empty payload yields a head chunk of (up to) `c`
bytes and the chunks of the rest. -/
theorem splitChunks_cons (c : Nat) (hc : c ≠ 0) (xs : List Nat) (hxs : xs ≠ []) :
    splitChunks c xs = xs.take c :: splitChunks c (xs.drop c) := by
  rw [splitChunks]
  simp [hc, hxs]

/-- Concatenating the emitted chunks reproduces the payload exactly. -/
theorem splitChunks_join (c : Nat) (hc : 0 < c) (xs : List Nat) :
    (splitChunks c xs).flatten = xs := by
  generalize hn : xs.length = n
  induction n using Nat.strong_induction_on generalizing xs with
  | _ n ih =>
    by_cases hxs : xs = []
    · subst hxs
      simp [splitChunks_nil]
    · rw [splitChunks_cons c (Nat.pos_iff_ne_zero.mp hc) xs hxs]
      have hlt : (xs.drop c).length < n := by
        rw [List.length_drop]
        have := List.length_pos.mpr hxs
        omega
      rw [List.flatten, ih _ hlt _ rfl]
      exact List.take_append_drop c xs

/-- The pacer emits exactly `⌈payload / c⌉` chunks. -/
theorem splitChunks_length (c : Nat) (hc : 0 < c) (xs : List Nat) :
    (splitChunks c xs).length = (xs.length + c - 1) / c := by
  generalize hn : xs.length = n
  induction n using Nat.strong_induction_on generalizing xs with
  | _ n ih =>
    by_cases hxs : xs = []
    · subst hxs
      simp only [List.length_nil] at hn
      subst hn
      rw [splitChunks_nil]
      simp only [List.length_nil, Nat.zero_add]
      exact (Nat.div_eq_of_lt (by omega)).symm
    · have hpos : 0 < n := hn ▸ List.length_pos.mpr hxs
      rw [splitChunks_cons c (Nat.pos_iff_ne_zero.mp hc) xs hxs]
      have hdlen : (xs.drop c).length = n - c := by rw [List.length_drop, hn]
      have hlt : (xs.drop c).length < n := by omega
      rw [List.length_cons, ih _ hlt _ rfl, hdlen]
      have hsplit : n + c - 1 = (n - 1) + c := by omega
      rw [hsplit, Nat.add_div_right _ hc]
      rcases Nat.lt_or_ge n c with hnc | hcn
      · have h1 : n - c = 0 := by omega
        rw [h1]
        rw [Nat.div_eq_of_lt (by omega : 0 + c - 1 < c),
            Nat.div_eq_of_lt (by omega : n - 1 < c)]
      · have h2 : n - c + c - 1 = n - 1 := by omega
        rw [h2]

/-- Every chunk holds at most `c` bytes and is non-empty. -/
theorem splitChunks_mem (c : Nat) (hc : 0 < c) (xs : List Nat) :
    ∀ l ∈ splitChunks c xs, l.length ≤ c ∧ l ≠ [] := by
  generalize hn : xs.length = n
  induction n using Nat.strong_induction_on generalizing xs with
  | _ n ih =>
    by_cases hxs : xs = []
    · subst hxs
      simp [splitChunks_nil]
    · rw [splitChunks_cons c (Nat.pos_iff_ne_zero.mp hc) xs hxs]
      intro l hl
      rcases List.mem_cons.mp hl with hhd | htl
      · subst hhd
        constructor
        · rw [List.length_take]
          omega
        · simp [List.take_eq_nil_iff, hxs, Nat.pos_iff_ne_zero.mp hc]
      · have hlt : (xs.drop c).length < n := by
          rw [List.length_drop]
          have := List.length_pos.mpr hxs
          omega
        exact ih _ hlt _ rfl l htl

/-- Every chunk except the last holds exactly `c` bytes. -/
theorem splitChunks_dropLast (c : Nat) (hc : 0 < c) (xs : List Nat) :
    ∀ l ∈ (splitChunks c xs).dropLast, l.length = c := by
  generalize hn : xs.length = n
  induction n using Nat.strong_induction_on generalizing xs with
  | _ n ih =>
    by_cases hxs : xs = []
    · subst hxs
      simp [splitChunks_nil]
    · rw [splitChunks_cons c (Nat.pos_iff_ne_zero.mp hc) xs hxs]
      by_cases hrest : xs.drop c = []
      · rw [hrest, splitChunks_nil]
        simp
      · have hne : splitChunks c (xs.drop c) ≠ [] := by
          rw [splitChunks_cons c (Nat.pos_iff_ne_zero.mp hc) _ hrest]
          simp
        intro l hl
        rw [List.dropLast_cons_of_ne_nil hne] at hl
        rcases List.mem_cons.mp hl with hhd | htl
        · subst hhd
          have hcn : c < xs.length := by
            by_contra hge
            exact hrest (List.drop_eq_nil_of_le (by omega))
          rw [List.length_take]
          omega
        · have hlt : (xs.drop c).length < n := by
            rw [List.length_drop]
            have := List.length_pos.mpr hxs
            omega
          exact ih _ hlt _ rfl l htl

/-- C6: with a positive chunk size `c = sampleRate * chunkMs / 1000 *
bytesPerSample`, the pacer emits exactly `⌈len / c⌉` chunks; every chunk
except possibly the last has exactly `c` bytes; every chunk is non-empty
and at most `c` bytes (the final chunk is the unpadded remainder); and
the chunks concatenate back to the payload. -/
theorem stream_to_chunks_correct (sampleRate chunkMs bytesPerSample : Nat)
    (payload : List Nat)
    (hc : 0 < chunkSizeBytes sampleRate chunkMs bytesPerSample) :
    ((splitChunks (chunkSizeBytes sampleRate chunkMs bytesPerSample) payload).length
        = (payload.length + chunkSizeBytes sampleRate chunkMs bytesPerSample - 1)
            / chunkSizeBytes sampleRate chunkMs bytesPerSample) ∧
    (splitChunks (chunkSizeBytes sampleRate chunkMs bytesPerSample) payload).flatten = payload ∧
    (∀ l ∈ (splitChunks (chunkSizeBytes sampleRate chunkMs bytesPerSample) payload).dropLast,
        l.length = chunkSizeBytes sampleRate chunkMs bytesPerSample) ∧
    (∀ l ∈ splitChunks (chunkSizeBytes sampleRate chunkMs bytesPerSample) payload,
        l.length ≤ chunkSizeBytes sampleRate chunkMs bytesPerSample ∧ l ≠ []) :=
  ⟨splitChunks_length _ hc payload, splitChunks_join _ hc payload,
   splitChunks_dropLast _ hc payload, splitChunks_mem _ hc payload⟩

/-- C6 witness: at 200 Hz, 20 ms chunks, 1 byte per sample the chunk size
is 4 bytes; a 14-byte payload (3.5 chunk-widths) yields 4 chunks, the
last shorter than the rest, which concatenate back to the payload. -/
theorem stream_to_chunks_correct_witness :
    ((splitChunks (chunkSizeBytes 200 20 1) [0,1,2,3,4,5,6,7,8,9,10,11,12,13]).length
        = (14 + chunkSizeBytes 200 20 1 - 1) / chunkSizeBytes 200 20 1) ∧
    (splitChunks (chunkSizeBytes 200 20 1) [0,1,2,3,4,5,6,7,8,9,10,11,12,13]).flatten
        = [0,1,2,3,4,5,6,7,8,9,10,11,12,13] ∧
    (∀ l ∈ (splitChunks (chunkSizeBytes 200 20 1)
        [0,1,2,3,4,5,6,7,8,9,10,11,12,13]).dropLast, l.length = chunkSizeBytes 200 20 1) ∧
    (∀ l ∈ splitChunks (chunkSizeBytes 200 20 1) [0,1,2,3,4,5,6,7,8,9,10,11,12,13],
        l.length ≤ chunkSizeBytes 200 20 1 ∧ l ≠ []) :=
  stream_to_chunks_correct 200 20 1 [0,1,2,3,4,5,6,7,8,9,10,11,12,13] (by decide)

/-! ## Conversation-history lemmas -/

/-- Iterated exchanges: fold `updateHistory` over a list of
(user input, assistant reply) pairs, starting from the empty history. -/
def runExchanges (ps : List (String × String)) : List Msg :=
  ps.foldl (fun h p => updateHistory h p.1 p.2) []

/-- The updated history is always a suffix of the untrimmed append, so
entries are evicted oldest-first. -/
theorem updateHistory_suffix (h : List Msg) (input response : String) :
    (updateHistory h input response).IsSuffix
      (h ++ [⟨"user", input⟩, ⟨"assistant", response⟩]) := by
  unfold updateHistory trimHistory
  split
  · exact List.drop_suffix _ _
  · exact List.suffix_refl _

/-- The updated history has `min (|h| + 2) 10` entries. -/
theorem updateHistory_length (h : List Msg) (input response : String) :
    (updateHistory h input response).length = min (h.length + 2) 10 := by
  unfold updateHistory trimHistory
  split <;> simp_all [List.length_append] <;> omega

/-- C5: appending a completed exchange keeps at most 10 entries — the
result's length is `min (|h| + 2) 10` and the result is a suffix of the
untrimmed list (oldest entries dropped first, FIFO); the machine's GPT
completion step installs exactly this update; and 6 concrete exchanges
leave exactly 10 entries, namely the 5 most recent exchanges. -/
theorem conversation_history_bounded :
    (∀ (h : List Msg) (input response : String),
        (updateHistory h input response).length = min (h.length + 2) 10 ∧
        (updateHistory h input response).IsSuffix
          (h ++ [⟨"user", input⟩, ⟨"assistant", response⟩])) ∧
    (∀ (st : VMState) (u resp : String) (ci : CallInfo),
        st.inFlight = some u → st.session = some ci →
        ∃ ci2, (step st (Event.gptOk resp)).session = some ci2 ∧
          ci2.conversation_history = updateHistory ci.conversation_history u resp ∧
          ci2.conversation_history.length ≤ 10) ∧
    runExchanges [("u1","a1"),("u2","a2"),("u3","a3"),("u4","a4"),("u5","a5"),("u6","a6")]
      = [⟨"user","u2"⟩, ⟨"assistant","a2"⟩, ⟨"user","u3"⟩, ⟨"assistant","a3"⟩,
         ⟨"user","u4"⟩, ⟨"assistant","a4"⟩, ⟨"user","u5"⟩, ⟨"assistant","a5"⟩,
         ⟨"user","u6"⟩, ⟨"assistant","a6"⟩] := by
  refine ⟨fun h input response => ⟨updateHistory_length h input response,
    updateHistory_suffix h input response⟩, ?_, by decide⟩
  intro st u resp ci hf hsess
  simp only [step, stepGptOk, hf, hsess]
  refine ⟨_, rfl, rfl, ?_⟩
  rw [updateHistory_length]
  omega

/-- A state in the middle of a generation cycle: the guard is held for
utterance "x", a debounce timer armed at time 0 is still pending, and the
GPT call for "x" is outstanding. -/
def lockedState : VMState where
  session := some { initialCallInfo with
    processing_lock := true
    last_processed_text := some "x"
    conversation_buffer := ["x"] }
  pendingTimer := some (0, 0)
  nextTimerId := 1
  inFlight := some "x"
  gptCalls := [("x", [])]

/-- C5 witness: completing the in-flight generation of `lockedState`
yields a history of at most 10 entries. -/
theorem conversation_history_bounded_witness :
    ∃ ci2, (step lockedState (Event.gptOk "reply")).session = some ci2 ∧
      ci2.conversation_history.length ≤ 10 := by
  obtain ⟨-, h2, -⟩ := conversation_history_bounded
  obtain ⟨ci2, hsess, -, hlen⟩ := h2 lockedState "x" "reply" _ rfl rfl
  exact ⟨ci2, hsess, hlen⟩

/-! ## Response trigger guard -/

/-- C1: while a generation-and-synthesis cycle is in flight for the
session (`processing_lock` set), a further end-of-speech flush trigger
and a further debounce-timer flush trigger are both rejected — the
generation engine is not invoked again and the duplicate-suppressed
counter is incremented by one — and both exits of the cycle (the GPT
call returning and the GPT call raising) clear the in-progress flag. -/
theorem guard_single_flight (st : VMState) (ci : CallInfo)
    (hs : st.session = some ci) (hlock : ci.processing_lock = true) :
    (∀ (now : Nat) (text : String), pyStrip text ≠ "" →
        (step st (Event.transcript now text true true)).gptCalls = st.gptCalls ∧
        ∃ ci2, (step st (Event.transcript now text true true)).session = some ci2 ∧
          ci2.duplicate_prevention_count = ci.duplicate_prevention_count + 1) ∧
    (∀ (id armedAt now : Nat),
        st.pendingTimer = some (id, armedAt) → now = armedAt + debounceMs →
        ci.conversation_buffer ≠ [] →
        (step st (Event.timerFire id now)).gptCalls = st.gptCalls ∧
        ∃ ci2, (step st (Event.timerFire id now)).session = some ci2 ∧
          ci2.duplicate_prevention_count = ci.duplicate_prevention_count + 1) ∧
    (∀ (u resp : String), st.inFlight = some u →
        (∀ ci2, (step st (Event.gptOk resp)).session = some ci2 →
            ci2.processing_lock = false) ∧
        (∀ ci2, (step st Event.gptErr).session = some ci2 →
            ci2.processing_lock = false)) := by
  refine ⟨?_, ?_, ?_⟩
  · intro now text htext
    simp only [step, stepTranscript, hs]
    have hb : (pyStrip text != "") = true := bne_iff_ne.mpr htext
    simp only [hb, Bool.and_self, if_true, hlock, if_pos]
    exact ⟨by trivial, _, rfl, rfl⟩
  · intro id armedAt now hpt hnow hbuf
    simp only [step, stepTimer, hpt, hnow]
    rw [if_pos (by simp)]
    simp only [hs]
    rw [if_neg hbuf]
    simp only [hlock, if_pos]
    exact ⟨by trivial, _, rfl, rfl⟩
  · intro u resp hf
    constructor
    · intro ci2 hci2
      simp only [step, stepGptOk, hf] at hci2
      cases hcase : st.session with
      | none => simp [hcase] at hci2
      | some c =>
        simp only [hcase] at hci2
        obtain rfl : _ = ci2 := Option.some_injective _ hci2
        rfl
    · intro ci2 hci2
      simp only [step, stepGptErr, hf] at hci2
      cases hcase : st.session with
      | none => simp [hcase] at hci2
      | some c =>
        simp only [hcase] at hci2
        obtain rfl : _ = ci2 := Option.some_injective _ hci2
        rfl

/-- C1 witness: in the concrete mid-cycle state `lockedState`, a second
end-of-speech trigger and a timer trigger leave the engine-call log
unchanged, and the GPT completion clears the lock. -/
theorem guard_single_flight_witness :
    (step lockedState (Event.transcript 5 "hi" true true)).gptCalls = lockedState.gptCalls ∧
    (step lockedState (Event.timerFire 0 1500)).gptCalls = lockedState.gptCalls ∧
    ∀ ci2, (step lockedState (Event.gptOk "r")).session = some ci2 →
      ci2.processing_lock = false := by
  obtain ⟨h1, h2, h3⟩ := guard_single_flight lockedState _ rfl rfl
  exact ⟨(h1 5 "hi" (by decide)).1, (h2 0 0 1500 rfl rfl (by decide)).1, (h3 "x" "r" rfl).1⟩

/-- The event trace behind the C2 counterexample: utterance "a" is
processed to completion, utterance "b" is accepted but its generation
call fails, then "a" is flushed again. -/
def completedThenRetryTrace : List Event :=
  [Event.transcript 0 "a" true true, Event.gptOk "ra",
   Event.transcript 10 "b" true true, Event.gptErr,
   Event.transcript 20 "a" true true]

/-- C2 counterexample: after "a" completes and "b" fails, the most
recently completed processed text for the session is "a"; flushing "a"
again is nevertheless accepted — the generation engine is invoked a
third time, with "a", and the duplicate-suppressed counter stays 0 —
because the code compares against the most recently attempted text
(recorded at guard acquisition and not rolled back on failure), which is
"b". -/
theorem duplicate_check_uses_attempted_text :
    ((run initialState completedThenRetryTrace).gptCalls.map Prod.fst = ["a", "b", "a"]) ∧
    ∃ ci, (run initialState completedThenRetryTrace).session = some ci ∧
      ci.duplicate_prevention_count = 0 ∧ ci.last_processed_text = some "a" := by
  exact ⟨by decide, _, rfl, by decide, by decide⟩

/-- A quiescent state whose last attempted processed text is "hi" and
whose buffer is empty: the next end-of-speech flush of "hi" resolves to
the same text. -/
def dupIdleState : VMState where
  session := some { initialCallInfo with last_processed_text := some "hi" }
  pendingTimer := none
  nextTimerId := 0
  inFlight := none
  gptCalls := []

/-- A quiescent state whose last attempted processed text is "hi", whose
buffer holds the fragment "hi", and whose debounce timer (id 0, armed at
time 0) is still live: the timer flush resolves to the same text. -/
def dupPendingState : VMState where
  session := some { initialCallInfo with
    conversation_buffer := ["hi"]
    last_processed_text := some "hi" }
  pendingTimer := some (0, 0)
  nextTimerId := 1
  inFlight := none
  gptCalls := []

/-- C2 amended: a flush whose utterance text is byte-identical to the
most recently attempted processed text (recorded when the guard accepted
that flush, and retained even when its generation later fails) is
rejected on both flush paths — an end-of-speech flush and a due-time
debounce-timer flush resolving to that text each leave the engine-call
log unchanged and increment the duplicate-suppressed counter by exactly
one; in particular two consecutive flush triggers resolving to identical
text produce exactly one engine call. -/
theorem duplicate_text_rejected (st : VMState) (ci : CallInfo) (t : String)
    (hs : st.session = some ci) (hlock : ci.processing_lock = false)
    (hlast : ci.last_processed_text = some t) :
    (∀ (now : Nat) (text : String), pyStrip text ≠ "" →
        joinSpace (ci.conversation_buffer ++ [pyStrip text]) = t →
        (step st (Event.transcript now text true true)).gptCalls = st.gptCalls ∧
        ∃ ci2, (step st (Event.transcript now text true true)).session = some ci2 ∧
          ci2.duplicate_prevention_count = ci.duplicate_prevention_count + 1) ∧
    (∀ (id armedAt : Nat), st.pendingTimer = some (id, armedAt) →
        ci.conversation_buffer ≠ [] →
        joinSpace ci.conversation_buffer = t →
        (step st (Event.timerFire id (armedAt + debounceMs))).gptCalls = st.gptCalls ∧
        ∃ ci2, (step st (Event.timerFire id (armedAt + debounceMs))).session = some ci2 ∧
          ci2.duplicate_prevention_count = ci.duplicate_prevention_count + 1) ∧
    ((run initialState [Event.transcript 0 "hey" true true, Event.gptOk "yo",
        Event.transcript 9 "hey" true true]).gptCalls.map Prod.fst = ["hey"] ∧
      ∃ ci3, (run initialState [Event.transcript 0 "hey" true true, Event.gptOk "yo",
          Event.transcript 9 "hey" true true]).session = some ci3 ∧
        ci3.duplicate_prevention_count = 1) := by
  refine ⟨?_, ?_, by decide, _, rfl, by decide⟩
  · intro now text htext hjoin
    simp only [step, stepTranscript, hs]
    have hb : (pyStrip text != "") = true := bne_iff_ne.mpr htext
    simp only [hb, Bool.and_self, if_true, hlock, Bool.false_eq_true, if_false, hlast, hjoin]
    exact ⟨by trivial, _, rfl, rfl⟩
  · intro id armedAt hpt hbuf hjoin
    simp only [step, stepTimer, hpt]
    rw [if_pos (by simp)]
    simp only [hs]
    rw [if_neg hbuf]
    simp only [hlock, Bool.false_eq_true, if_false, hlast, hjoin]
    exact ⟨by trivial, _, rfl, rfl⟩

/-- C2 amended witness: with last attempted text "hi", a fresh
end-of-speech flush of "hi" (empty buffer) and a due-time timer flush of
a buffered "hi" both add no engine call. -/
theorem duplicate_text_rejected_witness :
    (step dupIdleState (Event.transcript 4 "hi" true true)).gptCalls
        = dupIdleState.gptCalls ∧
    (step dupPendingState (Event.timerFire 0 (0 + debounceMs))).gptCalls
        = dupPendingState.gptCalls := by
  have h1 := duplicate_text_rejected dupIdleState
    { initialCallInfo with last_processed_text := some "hi" } "hi" rfl rfl rfl
  have h2 := duplicate_text_rejected dupPendingState
    { initialCallInfo with
      conversation_buffer := ["hi"]
      last_processed_text := some "hi" } "hi" rfl rfl rfl
  exact ⟨(h1.1 4 "hi" (by decide) (by decide)).1,
         (h2.2.1 0 0 rfl (by decide) (by decide)).1⟩

/-! ## Utterance buffer -/

/-- A state with no live debounce task ignores every timer wake-up. -/
theorem stepTimer_no_pending (st : VMState) (id now : Nat)
    (h : st.pendingTimer = none) : step st (Event.timerFire id now) = st := by
  simp only [step, stepTimer, h]

/-- A wake-up that does not match the live timer (a cancelled or
superseded task, or a wrong instant) is ignored. -/
theorem stepTimer_stale (st : VMState) (tid armedAt id now : Nat)
    (h : st.pendingTimer = some (tid, armedAt))
    (hne : ¬(tid = id ∧ now = armedAt + debounceMs)) :
    step st (Event.timerFire id now) = st := by
  simp only [step, stepTimer, h]
  rw [if_neg hne]

/-- Timer wake-ups never change the engine-call log of a state with no
live timer. -/
theorem run_timerFires_no_pending (st : VMState) (h : st.pendingTimer = none)
    (fires : List (Nat × Nat)) :
    run st (fires.map fun p => Event.timerFire p.1 p.2) = st := by
  induction fires with
  | nil => rfl
  | cons p rest ih =>
    show run (step st (Event.timerFire p.1 p.2)) _ = st
    rw [stepTimer_no_pending st p.1 p.2 h]
    exact ih

/-- The machine state after the two final fragments "hello" (at time 0)
and "world" (at time 700), neither flagged end-of-speech. -/
def debounceStart : VMState :=
  run initialState
    [Event.transcript 0 "hello" true false, Event.transcript 700 "world" true false]

/-- The machine state after the live debounce timer of `debounceStart`
fires at its due instant. -/
def debounceFlushed : VMState :=
  step debounceStart (Event.timerFire 1 (700 + debounceMs))

/-- C4: after the fragments "hello" then "world" (no end-of-speech), no
generation call has happened; the buffer holds both fragments in arrival
order; the only live timer is the one re-armed by the *last* fragment
(id 1, armed at time 700 — fragment "world" cancelled fragment "hello"'s
timer 0); and for any sequence of timer wake-ups whatsoever, the engine
is called exactly once — with the text "hello world" — when the live
timer fires at 700 + 1500 ms, and never otherwise. -/
theorem debounce_single_flush :
    debounceStart.gptCalls = [] ∧
    debounceStart.pendingTimer = some (1, 700) ∧
    (∃ ci, debounceStart.session = some ci ∧
      ci.conversation_buffer = ["hello", "world"]) ∧
    ∀ fires : List (Nat × Nat),
      (run debounceStart (fires.map fun p => Event.timerFire p.1 p.2)).gptCalls
        = if (1, 700 + debounceMs) ∈ fires then [("hello world", [])] else [] := by
  refine ⟨by decide, by decide, ⟨_, rfl, by decide⟩, ?_⟩
  have hflush : step debounceStart (Event.timerFire 1 (700 + debounceMs))
      = debounceFlushed := rfl
  have hflushedTimer : debounceFlushed.pendingTimer = none := by decide
  have hflushedCalls : debounceFlushed.gptCalls = [("hello world", [])] := by decide
  intro fires
  induction fires with
  | nil => decide
  | cons p rest ih =>
    by_cases hp : p = (1, 700 + debounceMs)
    · subst hp
      show (run (step debounceStart (Event.timerFire 1 (700 + debounceMs))) _).gptCalls = _
      rw [hflush, run_timerFires_no_pending debounceFlushed hflushedTimer rest,
          hflushedCalls, if_pos (List.mem_cons_self _ _)]
    · show (run (step debounceStart (Event.timerFire p.1 p.2)) _).gptCalls = _
      have hne : ¬(1 = p.1 ∧ p.2 = 700 + debounceMs) := by
        rintro ⟨h1, h2⟩
        exact hp (Prod.ext h1.symm h2)
      rw [stepTimer_stale debounceStart 1 700 p.1 p.2 (by decide) hne, ih]
      have hmem : ((1, 700 + debounceMs) ∈ p :: rest)
          ↔ ((1, 700 + debounceMs) ∈ rest) := by
        simp only [List.mem_cons, or_iff_right_iff_imp]
        intro hq
        exact absurd hq.symm hp
      simp only [hmem]

/-! ## Teardown -/

/-- The event trace behind the C9 counterexample: one final fragment
arms the debounce timer, then the session is torn down. -/
def teardownTrace : List Event :=
  [Event.transcript 0 "hello" true false, Event.cleanup]

/-- C9 counterexample: `cleanup_call` removes the session from the
registry but does NOT cancel the pending debounce timer — after teardown
the timer armed at time 0 is still live.  (Its later firing is a no-op
only because the callback re-checks registration, as the amended theorem
shows.) -/
theorem teardown_leaves_timer_armed :
    (run initialState teardownTrace).session = none ∧
    (run initialState teardownTrace).pendingTimer = some (0, 0) :=
  ⟨by decide, by decide⟩

/-- C9 amended: tearing down a session removes it from the registry (and
its guard state with it) without cancelling the pending debounce timer;
an orphaned timer firing after teardown is nevertheless a guaranteed
no-op, because the callback re-checks that the call is still registered:
it performs no flush, triggers no generation call, and the session stays
gone. -/
theorem orphan_timer_noop (st : VMState) (id now : Nat)
    (hs : st.session = none) :
    (∀ st2 : VMState, (step st2 Event.cleanup).session = none) ∧
    (step st (Event.timerFire id now)).gptCalls = st.gptCalls ∧
    (step st (Event.timerFire id now)).inFlight = st.inFlight ∧
    (step st (Event.timerFire id now)).session = none := by
  refine ⟨?_, ?_⟩
  · intro st2
    obtain ⟨sess2, pt2, nid2, infl2, calls2⟩ := st2
    cases sess2 <;> rfl
  · obtain ⟨sess, pt, nid, infl, calls⟩ := st
    obtain rfl : sess = none := hs
    cases pt with
    | none => exact ⟨rfl, rfl, rfl⟩
    | some p =>
      obtain ⟨tid, armedAt⟩ := p
      simp only [step, stepTimer]
      by_cases hc : tid = id ∧ now = armedAt + debounceMs
      · rw [if_pos hc]
        exact ⟨rfl, rfl, rfl⟩
      · rw [if_neg hc]
        exact ⟨rfl, rfl, rfl⟩

/-- C9 amended witness: in the concrete post-teardown state, the
orphaned timer's wake-up changes no engine call and revives nothing. -/
theorem orphan_timer_noop_witness :
    (step (run initialState teardownTrace) (Event.timerFire 0 debounceMs)).gptCalls
        = (run initialState teardownTrace).gptCalls ∧
    (step (run initialState teardownTrace) (Event.timerFire 0 debounceMs)).session
        = none := by
  obtain ⟨-, h2, -, h4⟩ :=
    orphan_timer_noop (run initialState teardownTrace) 0 debounceMs (by decide)
  exact ⟨h2, h4⟩

/-! ## Empty transcripts -/

/-- C10: a transcript event whose text is empty or whitespace-only never
enters the buffer, never arms or re-arms the debounce timer, and never
triggers generation — whatever its `is_final` and `speech_final` flags —
while the transcript counter still increments: the step changes nothing
but `transcription_count`. -/
theorem whitespace_transcript_only_counted (st : VMState) (ci : CallInfo)
    (now : Nat) (text : String) (isFinal speechFinal : Bool)
    (hs : st.session = some ci) (ht : pyStrip text = "") :
    step st (Event.transcript now text isFinal speechFinal)
      = { st with session := some { ci with
            transcription_count := ci.transcription_count + 1 } } := by
  simp only [step, stepTranscript, hs, ht]
  simp

/-- C10 witness: a final end-of-speech transcript of ASCII blanks and a
transcript of Unicode whitespace (no-break space U+00A0 and em space
U+2003) in the fresh session only bump the counter. -/
theorem whitespace_transcript_only_counted_witness :
    (step initialState (Event.transcript 3 "   " true true)
      = { initialState with session := some { initialCallInfo with
            transcription_count := 1 } }) ∧
    (step initialState (Event.transcript 3 "  " true true)
      = { initialState with session := some { initialCallInfo with
            transcription_count := 1 } }) := by
  exact ⟨whitespace_transcript_only_counted initialState initialCallInfo 3 "   "
      true true rfl (by decide),
    whitespace_transcript_only_counted initialState initialCallInfo 3 "  "
      true true rfl (by decide)⟩

/-! ## Cleanup idempotence -/

/-- C8: session cleanup is idempotent — running `cleanup_call` a second
time for the same call id is the identity (the registry, the STT
connection table and the log of performed teardowns are all unchanged,
and no error path exists since the function is total), and across both
calls `stop_stream` is invoked at most once more than it had been
before. -/
theorem cleanup_call_idempotent (vs : VoiceState) (sid : String) :
    cleanup_call (cleanup_call vs sid) sid = cleanup_call vs sid ∧
    (cleanup_call vs sid).stop_calls.count sid ≤ vs.stop_calls.count sid + 1 := by
  by_cases hm : sid ∈ vs.active_calls
  · constructor
    · show cleanup_call (if sid ∈ vs.active_calls then _ else _) sid = _
      rw [if_pos hm]
      unfold cleanup_call
      rw [if_neg ?_, if_pos hm]
      simp only [List.mem_filter, bne_self_eq_false, and_false, not_false_iff]
      exact fun h => by simp at h
    · unfold cleanup_call
      rw [if_pos hm]
      simp [List.count_append]
  · have h1 : cleanup_call vs sid = vs := by
      unfold cleanup_call
      rw [if_neg hm]
    rw [h1]
    exact ⟨h1, by omega⟩

end Chatbot
